import Mathlib

/-!
Shallow embedding of the `react-vite-tailwind-shadcn` starter template.

Embedded sources:
* `app/routes.ts` — the route configuration (its default export) and the
  `App` shell component;
* `app/routes/home.tsx` — the `meta` function and the route-module `Home`
  page component;
* `src/pages/Home.tsx` — the page-component `Home`.

The shadcn/ui `Button` (`app/components/ui/button.tsx`) is not among the
sources; it is modelled from the spec (see `Button` below).

Markup is a tree of element and text nodes. Components are embedded as
state-passing render functions `σ → Node σ × σ` over an abstract type `σ` of
observable application state: a component body that is a single `return` of
static JSX produces its markup and passes the state through untouched.
-/

set_option autoImplicit false

/-- A markup (virtual DOM) tree, parametrised by the type `σ` of observable
application state. An element node carries its tag, optional `className`,
optional click handler and children; a text node carries its literal text
(JSX collapses the whitespace around literals). -/
inductive Node (σ : Type) where
  | text (s : String)
  | elem (tag : String) (className : Option String) (onClick : Option (σ → σ))
      (children : List (Node σ))

mutual

/-- All element nodes of the tree with the given tag, in document order. -/
def elems {σ : Type} (t : String) : Node σ → List (Node σ)
  | .text _ => []
  | .elem tag cl h cs =>
      (if tag = t then [Node.elem tag cl h cs] else []) ++ elemsList t cs

/-- `elems`, over a list of sibling trees. -/
def elemsList {σ : Type} (t : String) : List (Node σ) → List (Node σ)
  | [] => []
  | c :: cs => elems t c ++ elemsList t cs

end

mutual

/-- The concatenated text content of a tree. -/
def innerText {σ : Type} : Node σ → String
  | .text s => s
  | .elem _ _ _ cs => innerTextList cs

/-- `innerText`, over a list of sibling trees. -/
def innerTextList {σ : Type} : List (Node σ) → String
  | [] => ""
  | c :: cs => innerText c ++ innerTextList cs

end

mutual

/-- Whether a text node with exactly the literal content `s` occurs in the
tree. -/
def containsText {σ : Type} (s : String) : Node σ → Bool
  | .text t => t == s
  | .elem _ _ _ cs => containsTextList s cs

/-- `containsText`, over a list of sibling trees. -/
def containsTextList {σ : Type} (s : String) : List (Node σ) → Bool
  | [] => false
  | c :: cs => containsText s c || containsTextList s cs

end

/-- The click handler attached to a node; text nodes carry none. -/
def handlerOf {σ : Type} : Node σ → Option (σ → σ)
  | .text _ => none
  | .elem _ _ h _ => h

/-- Deliver a click event to a node: run its handler on the current state if
one is attached, otherwise leave the state unchanged. -/
def dispatchClick {σ : Type} (n : Node σ) (s : σ) : σ :=
  match handlerOf n with
  | some h => h s
  | none => s

/-- The first `button` element of a tree, if any. -/
def firstButton {σ : Type} (n : Node σ) : Option (Node σ) :=
  (elems "button" n).head?

/-- Modelled from the spec: the shadcn/ui `Button` component
(`app/components/ui/button.tsx`) is not among the sources. Per the spec it is
a reusable, pre-built interactive button element from a third-party UI kit;
it renders a native `button` element carrying exactly the props it is given —
here the optional click handler and the label children. -/
def Button {σ : Type} (onClick : Option (σ → σ)) (children : List (Node σ)) :
    Node σ :=
  .elem "button" none onClick children

namespace Pages

/-- `src/pages/Home.tsx`, default export `Home`: a component of no props whose
body is a single `return` of static JSX — a `div` holding a `main` with an
`h1` heading, a paragraph, and a `Button` labelled "Click me". No `onClick`
prop is passed to any element. -/
def Home (σ : Type) (world : σ) : Node σ × σ :=
  (.elem "div" (some "min-h-screen bg-background") none
    [.elem "main" (some "pt-16 p-4 container mx-auto") none
      [.elem "h1" (some "text-4xl font-bold mb-4") none [.text "My Easel App"],
       .elem "p" (some "text-muted-foreground mb-6") none
         [.text "Replace this with your own content."],
       Button none [.text "Click me"]]],
   world)

end Pages

/-- The argument record of a route `meta` function (`Route.MetaArgs`); the
home route destructures none of its fields. -/
structure MetaArgs where
  params : List (String × String)

/-- One descriptor in the list a route `meta` function returns: either a
`title` entry or an entry with `name` and `content` fields. -/
inductive MetaEntry where
  | title (t : String)
  | nameContent (n c : String)
deriving DecidableEq

namespace HomeRoute

/-- `app/routes/home.tsx`, `export function meta`: ignores its argument and
returns the title entry followed by the description entry. -/
def meta (_ : MetaArgs) : List MetaEntry :=
  [.title "My Easel App", .nameContent "description" "Welcome to My Easel App!"]

/-- `app/routes/home.tsx`, default export `Home`: a component of no props
whose body is a single `return` of static JSX — a `div` holding a text
literal and a `Button` labelled "Click me". No `onClick` prop is passed. -/
def Home (σ : Type) (world : σ) : Node σ × σ :=
  (.elem "div" none none
    [.text "Replace this with your own content.",
     Button none [.text "Click me"]],
   world)

end HomeRoute

/-- One entry of the `app/routes.ts` route configuration: a URL path pattern
together with the route-module file registered for it. -/
structure RouteEntry where
  path : String
  file : String
deriving DecidableEq

/-- `index(file)` from `@react-router/dev/routes`: an index route, rendered
at the path of its parent — at the root of the configuration, the path `/`. -/
def index (file : String) : RouteEntry :=
  { path := "/", file := file }

/-- `route(path, file)` from `@react-router/dev/routes`: a route rendered at
`/path`. Only commented-out examples in `app/routes.ts` use it. -/
def route (p file : String) : RouteEntry :=
  { path := "/" ++ p, file := file }

/-- The default export of `app/routes.ts`: the static route table, fixed at
build time. Every entry beyond the single `index` entry is commented out in
the source. -/
def routesConfig : List RouteEntry :=
  [index "./routes/home.tsx"]

/-- The default export (the page component) of a registered route-module
file; `./routes/home.tsx` is the only route module present. -/
def defaultExport (σ : Type) (file : String) : Option (σ → Node σ × σ) :=
  if file = "./routes/home.tsx" then some (HomeRoute.Home σ) else none

/-- A `<Route path=… element=…>` declaration as written in the `App`
component; the element is the render function of the mounted page. -/
structure RouteDef (σ : Type) where
  path : String
  element : σ → Node σ × σ

/-- The routes declared under `<Routes>` inside `App` (`app/routes.ts`,
lines 28–36): the single `<Route path="/" element={<Home />} />`, with `Home`
imported from `@/pages/Home`. -/
def appRoutes (σ : Type) : List (RouteDef σ) :=
  [{ path := "/", element := Pages.Home σ }]

/-- The routes whose path matches the current location. The paths present are
literal (no dynamic segment, no splat), so matching is path equality. -/
def matchedRoutes {σ : Type} (rs : List (RouteDef σ)) (location : String) :
    List (RouteDef σ) :=
  rs.filter (fun r => r.path == location)

/-- `<Routes>` renders the element of the first matching route, or nothing
when no route matches. -/
def renderRoutes {σ : Type} (rs : List (RouteDef σ)) (location : String)
    (world : σ) : Option (Node σ) × σ :=
  match (matchedRoutes rs location).head? with
  | some r => (some (r.element world).1, (r.element world).2)
  | none => (none, world)

/-- The `App` shell (`app/routes.ts`, lines 28–36): a `BrowserRouter` around
one `<Routes>` block. Rendering it at `location` mounts the page of the route
matching `location`, if any, and otherwise mounts no page. -/
def App (σ : Type) (location : String) (world : σ) : Option (Node σ) × σ :=
  renderRoutes (appRoutes σ) location world

/-- Resolution in a route table — a sequence of path-to-component
associations, as the spec describes the route table: the first entry whose
path equals the requested path wins, and no match yields `none`. -/
def resolve {α : Type} : List (String × α) → String → Option α
  | [], _ => none
  | e :: rest, q => if e.1 = q then some e.2 else resolve rest q

/-- The page title declared by the result of a `meta` function: the value of
its first `title` entry. -/
def titleOf : List MetaEntry → Option String
  | [] => none
  | MetaEntry.title t :: _ => some t
  | _ :: rest => titleOf rest

/-- Shared helper: when the location differs from `/`, no route of the `App`
shell matches it. -/
theorem matchedRoutes_app_nil (σ : Type) (location : String)
    (h : location ≠ "/") : matchedRoutes (appRoutes σ) location = [] := by
  simp [matchedRoutes, appRoutes, beq_iff_eq, Ne.symm h]

/-- C1: rendering the root application (`App`) at `/` mounts exactly one page
component — the one registered at path `/`, namely `Home` from
`@/pages/Home` — and the button renders inside the markup of that page,
nested under the element of the route. -/
theorem app_mounts_exactly_home_with_button (σ : Type) (w : σ) :
    matchedRoutes (appRoutes σ) "/" = [{ path := "/", element := Pages.Home σ }] ∧
    (App σ "/" w).1 = some (Pages.Home σ w).1 ∧
    (elems "button" (Pages.Home σ w).1).length = 1 :=
  ⟨rfl, rfl, rfl⟩

/-- C2: the markup returned by the `Home` page component
(`src/pages/Home.tsx`) contains a heading element, the literal text
"Replace this with your own content.", and exactly one interactive button,
whose label is "Click me". -/
theorem home_markup_contents (σ : Type) (w : σ) :
    (elems "h1" (Pages.Home σ w).1).length = 1 ∧
    containsText "Replace this with your own content." (Pages.Home σ w).1 = true ∧
    (elems "button" (Pages.Home σ w).1).map innerText = ["Click me"] :=
  ⟨rfl, rfl, rfl⟩

/-- C3: appending an entry for a path not already mapped in a route table
makes that path resolve to the new component, and changes the resolution of
no other path. -/
theorem resolve_append_fresh {α : Type} (t : List (String × α)) (p : String)
    (c : α) (hp : resolve t p = none) :
    resolve (t ++ [(p, c)]) p = some c ∧
    ∀ q, q ≠ p → resolve (t ++ [(p, c)]) q = resolve t q := by
  constructor
  · induction t with
    | nil => simp [resolve]
    | cons e rest ih =>
        by_cases he : e.1 = p
        · rw [resolve, if_pos he] at hp
          exact absurd hp (by simp)
        · rw [resolve, if_neg he] at hp
          rw [List.cons_append, resolve, if_neg he]
          exact ih hp
  · intro q hq
    clear hp
    induction t with
    | nil =>
        have hpq : p ≠ q := Ne.symm hq
        simp [resolve, hpq]
    | cons e rest ih =>
        by_cases he : e.1 = q
        · simp only [List.cons_append, resolve, he, if_pos]
        · simp only [List.cons_append, resolve, he, if_false]
          exact ih

/-- Witness for C3: the route table holding only the home entry, the fresh
path `/about`, and a new component. -/
theorem resolve_append_fresh_witness :
    resolve ([("/", "home")] ++ [("/about", "about")]) "/about" = some "about" ∧
    resolve ([("/", "home")] ++ [("/about", "about")]) "/" =
      resolve [("/", "home")] "/" :=
  ⟨(resolve_append_fresh [("/", "home")] "/about" "about" (by decide)).1,
   (resolve_append_fresh [("/", "home")] "/about" "about" (by decide)).2
     "/" (by decide)⟩

/-- C4: the route table of `app/routes.ts` is a static sequence with exactly
one entry, mapping the path `/` to the route module whose default export is
the `Home` component. -/
theorem routesConfig_single_home_entry (σ : Type) :
    routesConfig = [{ path := "/", file := "./routes/home.tsx" }] ∧
    defaultExport σ "./routes/home.tsx" = some (HomeRoute.Home σ) :=
  ⟨rfl, rfl⟩

/-- C5: delivering a click event to the button rendered by the Home page
(the `src/pages/Home.tsx` page as well as the `app/routes/home.tsx` route
module) leaves the observable application state unchanged: no click handler
is attached to the button element. -/
theorem click_button_no_effect (σ : Type) (w s : σ) :
    ∃ b b',
      firstButton (Pages.Home σ w).1 = some b ∧ handlerOf b = none ∧
      dispatchClick b s = s ∧
      firstButton (HomeRoute.Home σ w).1 = some b' ∧ handlerOf b' = none ∧
      dispatchClick b' s = s :=
  ⟨Button none [.text "Click me"], Button none [.text "Click me"],
   rfl, rfl, rfl, rfl, rfl, rfl⟩

/-- C6: the `Home` page component is a pure function of no inputs: any two
invocations return equal markup, and an invocation leaves the observable
state exactly as it found it (both `Home` components). -/
theorem home_pure (σ : Type) (w w' : σ) :
    (Pages.Home σ w).1 = (Pages.Home σ w').1 ∧ (Pages.Home σ w).2 = w ∧
    (HomeRoute.Home σ w).1 = (HomeRoute.Home σ w').1 ∧
    (HomeRoute.Home σ w).2 = w :=
  ⟨rfl, rfl, rfl, rfl⟩

/-- C7: every operation authored in the repository — `App`, the two `Home`
components, `meta`, and the construction of the route table — is total and
reaches no error outcome: on every input it returns a plain value, and it
threads the outside world through unchanged, there being no I/O, no parsing
of untrusted input and no network call. -/
theorem operations_total (σ : Type) (w : σ) (location : String)
    (a : MetaArgs) :
    (App σ location w).2 = w ∧
    (Pages.Home σ w).2 = w ∧
    (HomeRoute.Home σ w).2 = w ∧
    HomeRoute.meta a =
      [MetaEntry.title "My Easel App",
       MetaEntry.nameContent "description" "Welcome to My Easel App!"] ∧
    routesConfig = [index "./routes/home.tsx"] := by
  refine ⟨?_, rfl, rfl, rfl, rfl⟩
  by_cases h : location = "/"
  · subst h; rfl
  · show (App σ location w).2 = w
    unfold App renderRoutes
    rw [matchedRoutes_app_nil σ location h]
    rfl

/-- C8: for every path other than `/`, rendering the root application mounts
no page component: the route table has no catch-all entry, so no route
matches and `Routes` renders nothing. -/
theorem app_unmatched_path_mounts_none (σ : Type) (w : σ) (p : String)
    (h : p ≠ "/") :
    matchedRoutes (appRoutes σ) p = [] ∧ (App σ p w).1 = none := by
  have hm := matchedRoutes_app_nil σ p h
  refine ⟨hm, ?_⟩
  unfold App renderRoutes
  rw [hm]
  rfl

/-- Witness for C8 at the concrete path `/about`. -/
theorem app_unmatched_path_mounts_none_witness :
    matchedRoutes (appRoutes Nat) "/about" = [] ∧
    (App Nat "/about" 0).1 = none :=
  app_unmatched_path_mounts_none Nat 0 "/about" (by decide)

/-- C9: for every argument, the `meta` function of the home route returns
exactly two entries in this order: the title entry "My Easel App", then the
description entry with content "Welcome to My Easel App!". -/
theorem meta_entries (a : MetaArgs) :
    HomeRoute.meta a =
      [MetaEntry.title "My Easel App",
       MetaEntry.nameContent "description" "Welcome to My Easel App!"] :=
  rfl

/-- C10: the heading rendered by the `src/pages/Home.tsx` page carries the
literal text "My Easel App", equal to the page title declared by the `meta`
function of the home route. -/
theorem heading_matches_meta_title (σ : Type) (w : σ) (a : MetaArgs) :
    (elems "h1" (Pages.Home σ w).1).map innerText = ["My Easel App"] ∧
    titleOf (HomeRoute.meta a) = some "My Easel App" :=
  ⟨rfl, rfl⟩
